import Mathlib

/-!
Shallow embedding of `find_file` (src/main.rs): the glob-pattern compiler
(`Regex::new("^" ++ pattern.replace("*", ".*") ++ "$")`), the recursive
directory traversal `search_files`, and the line scanner `search_content`.

Filesystem effects are modelled by an explicit tree (`FsNode`) in which every
fallible operation of the traversal carries its outcome: the directory's
metadata lookup, the `read_dir` listing, each entry of the listing, and the
content of each file as read line by line.

The `regex` crate is modelled on the fragment of regular expressions that the
glob translation produces on patterns free of other regex metacharacters:
literal characters, `.` (any character except a newline, the crate's default)
and `.*`.  A translated pattern containing any further metacharacter
(`\ ^ $ | ? + ( ) [ ] { }` or a `*` not produced by the translation) is
treated as a failed compile, as the traversal only ever distinguishes
compiling from not compiling.
-/

/-- The two error kinds `search_files` distinguishes: `io::ErrorKind::PermissionDenied`
versus everything else. -/
inductive IoErrKind where
  | permissionDenied
  | other
deriving DecidableEq, Repr

/-- An `io::Error`: its kind and its `Display` rendering (used in messages). -/
structure IoErr where
  kind : IoErrKind
  msg : String
deriving DecidableEq, Repr

/-- A directory entry's file name as seen through `file_name().to_str()`:
either valid UTF-8 or undecodable (`to_str()` returns `None`). -/
inductive FName where
  | utf8 (s : String)
  | undecodable (lossy : String)
deriving DecidableEq, Repr

/-- What reading a file yields: `File::open` fails, or a sequence of line
reads each of which may fail (`reader.lines()` stops being consulted past the
first error because `search_content` returns it). -/
inductive FileContent where
  | openFail (e : IoErr)
  | lines (ls : List (Except IoErr String))

/-- One token of a compiled pattern: a literal character, `.` (any character
other than a newline) or `.*` (any sequence of characters other than
newlines). -/
inductive GlobTok where
  | lit (c : Char)
  | anyChar
  | anyStar
deriving DecidableEq, Repr

/-- A compiled matcher (the model of a compiled `Regex`). -/
abbrev Glob := List GlobTok

/-- Regex metacharacters other than `.`: a translated pattern containing one
of these (or a stray `*`) falls outside the modelled fragment and is treated
as a compile failure. -/
def regexSpecialChars : List Char :=
  ['*', '\\', '^', '$', '|', '?', '+', '(', ')', '[', ']', '\x7b', '\x7d']

/-- `pattern.replace("*", ".*")` at the character level: Rust's `str::replace`
with a one-character needle substitutes each occurrence left to right. -/
def translateChars : List Char → List Char
  | [] => []
  | c :: rest =>
      if c = '*' then '.' :: '*' :: translateChars rest
      else c :: translateChars rest

/-- Parse the translated pattern into matcher tokens.  In a translated
pattern every `*` is immediately preceded by the `.` inserted for it, so
`.*` pairs become `anyStar`, a lone `.` becomes `anyChar`, and any other
non-metacharacter is a literal. -/
def parseTrans : List Char → Option (List GlobTok)
  | [] => some []
  | c :: rest =>
      if c = '.' then
        match rest with
        | [] => some [GlobTok.anyChar]
        | c2 :: rest2 =>
            if c2 = '*' then (parseTrans rest2).map (fun ts => GlobTok.anyStar :: ts)
            else (parseTrans (c2 :: rest2)).map (fun ts => GlobTok.anyChar :: ts)
      else if c ∈ regexSpecialChars then none
      else (parseTrans rest).map (fun ts => GlobTok.lit c :: ts)

/-- `Regex::new(&format!("^{}$", pattern.replace("*", ".*"))).ok()`: the
anchors make the matcher a whole-string matcher, which the token semantics
build in; a pattern outside the modelled fragment compiles to `none`. -/
def compileGlob (p : String) : Option Glob :=
  parseTrans (translateChars p.data)

/-- All suffixes of `ds` reachable by deleting a (possibly empty) prefix of
non-newline characters: the strings `.*` can leave for the rest of the
pattern. -/
def dropNoNl : List Char → List (List Char)
  | [] => [[]]
  | d :: ds => (d :: ds) :: (if d = '\n' then [] else dropNoNl ds)

/-- Whole-string matching of a token list (the model of
`re.is_match(s)` for the anchored regex `re`). -/
def tokMatch : List GlobTok → List Char → Bool
  | [], ds => ds.isEmpty
  | GlobTok.lit c :: ts, ds =>
      match ds with
      | [] => false
      | d :: ds' => c == d && tokMatch ts ds'
  | GlobTok.anyChar :: ts, ds =>
      match ds with
      | [] => false
      | d :: ds' => d ≠ '\n' && tokMatch ts ds'
  | GlobTok.anyStar :: ts, ds => (dropNoNl ds).any (fun v => tokMatch ts v)

/-- `re.is_match(s)` for a compiled matcher. -/
def globMatch (g : Glob) (s : String) : Bool :=
  tokMatch g s.data

/-- `search_content`: open the file, then scan lines in order; a line-read
error propagates; the first line fully matched by some matcher yields
`Ok(true)`; end of file yields `Ok(false)`. -/
def scanLines (filter_regexes : List Glob) : List (Except IoErr String) → Except IoErr Bool
  | [] => Except.ok false
  | Except.error e :: _ => Except.error e
  | Except.ok line :: rest =>
      if filter_regexes.any (fun re => globMatch re line) then Except.ok true
      else scanLines filter_regexes rest

/-- `fn search_content(file_path, filter_regexes) -> io::Result<bool>`. -/
def search_content (fc : FileContent) (filter_regexes : List Glob) : Except IoErr Bool :=
  match fc with
  | FileContent.openFail e => Except.error e
  | FileContent.lines ls => scanLines filter_regexes ls

/-- The fields of `Args` the core reads (`exclude`, `all`, `filter`,
`content`); the directory arguments become the roots `main` iterates over. -/
structure Args where
  exclude : Option String
  all : Bool
  filter : List String
  content : Bool
deriving DecidableEq, Repr

/-- `filter_regexes` as built in `main`: compile every filter pattern and
silently drop the ones that fail to compile. -/
def filterRegexesOf (filter : List String) : List Glob :=
  filter.filterMap compileGlob

mutual
/-- A node of the modelled filesystem.  A `file` is anything `is_dir()` is
false for; a `dir` carries the outcome of its own metadata lookup (`none`
means success) and of `fs::read_dir`. -/
inductive FsNode where
  | file (name : FName) (content : FileContent)
  | dir (name : String) (meta : Option IoErr) (listing : Listing)
/-- The outcome of `fs::read_dir`. -/
inductive Listing where
  | fail (e : IoErr)
  | ok (entries : Entries)
/-- The entries yielded by a directory iterator, in enumeration order. -/
inductive Entries where
  | nil
  | cons (entry : DirEntry) (rest : Entries)
/-- One yielded entry: enumerating it failed (`Err(e)`) or produced a node. -/
inductive DirEntry where
  | fail (e : IoErr)
  | node (n : FsNode)
end

/-- `path.is_dir()`: a fresh metadata lookup, so it is `false` both for files
and for a directory whose own stat fails. -/
def FsNode.isDirB : FsNode → Bool
  | FsNode.dir _ none _ => true
  | _ => false

/-- The entry's base name as a string, as `Path::display`/`to_string_lossy`
render it when building paths. -/
def FsNode.nameF : FsNode → String
  | FsNode.file (FName.utf8 s) _ => s
  | FsNode.file (FName.undecodable s) _ => s
  | FsNode.dir n _ _ => n

/-- The entry's name through `file_name().and_then(|n| n.to_str())`. -/
def FsNode.fileNameF : FsNode → FName
  | FsNode.file n _ => n
  | FsNode.dir n _ _ => FName.utf8 n

/-- What `File::open` + line reads yield for this node; opening a directory
as a file fails. -/
def FsNode.contentF : FsNode → FileContent
  | FsNode.file _ c => c
  | FsNode.dir _ _ _ => FileContent.openFail ⟨IoErrKind.other, "Is a directory (os error 21)"⟩

/-- The four accumulated values `search_files` returns: matched file paths,
permission-denied directory paths, the other-error flag, and the error
text. -/
structure SearchResult where
  files : List String
  permissionDeniedDirs : List String
  otherErrorOccurred : Bool
  errorMessage : String
deriving DecidableEq, Repr

/-- The sequential accumulation of the entry loop: each entry's contribution
is appended to the running lists, the flags are or-ed and the messages
concatenated. -/
def mergeR (a b : SearchResult) : SearchResult :=
  { files := a.files ++ b.files
    permissionDeniedDirs := a.permissionDeniedDirs ++ b.permissionDeniedDirs
    otherErrorOccurred := a.otherErrorOccurred || b.otherErrorOccurred
    errorMessage := a.errorMessage ++ b.errorMessage }

/-- The empty accumulator the loop starts from. -/
def emptyResult : SearchResult :=
  { files := [], permissionDeniedDirs := [], otherErrorOccurred := false, errorMessage := "" }

/-- `file_name.starts_with('.')`: true exactly when the first character is
`'.'` (defined on the character data so that it evaluates). -/
def startsWithDot (s : String) : Bool :=
  match s.data with
  | [] => false
  | c :: _ => c = '.'

/-- The `name_matches` expression of the entry loop, verbatim:
`(args.all || !file_name.starts_with('.')) && (filter_regexes.is_empty() ||
filter_regexes.iter().any(..)) && exclude_regex.as_ref().map_or(true, |re|
!re.is_match(file_name))`. -/
def name_matches (args : Args) (filter_regexes : List Glob) (exclude_regex : Option Glob)
    (file_name : String) : Bool :=
  (args.all || !(startsWithDot file_name)) &&
  (filter_regexes.isEmpty || filter_regexes.any (fun re => globMatch re file_name)) &&
  (match exclude_regex with
   | none => true
   | some re => !(globMatch re file_name))

mutual
/-- `fn search_files(dir, args, filter_regexes)`: metadata check, not-a-directory
check, exclude compilation, `read_dir`, then the entry loop. -/
def search_files (dir : String) (node : FsNode) (args : Args)
    (filter_regexes : List Glob) : SearchResult :=
  match node with
  | FsNode.file _ _ =>
      { files := [], permissionDeniedDirs := [], otherErrorOccurred := true,
        errorMessage := "Error: " ++ dir ++ " is not a directory" }
  | FsNode.dir _ meta listing =>
      match meta with
      | some e =>
          if e.kind = IoErrKind.permissionDenied then
            { files := [], permissionDeniedDirs := [dir], otherErrorOccurred := false,
              errorMessage := "" }
          else
            { files := [], permissionDeniedDirs := [], otherErrorOccurred := true,
              errorMessage := "Error accessing " ++ dir ++ ": " ++ e.msg }
      | none =>
          match listing with
          | Listing.fail e =>
              if e.kind = IoErrKind.permissionDenied then
                { files := [], permissionDeniedDirs := [dir], otherErrorOccurred := false,
                  errorMessage := "" }
              else
                { files := [], permissionDeniedDirs := [], otherErrorOccurred := true,
                  errorMessage := "Error reading directory " ++ dir ++ ": " ++ e.msg }
          | Listing.ok entries =>
              walkEntries dir args filter_regexes (args.exclude.bind compileGlob) entries

/-- The `for entry in read_dir` loop, as the fold of per-entry contributions. -/
def walkEntries (dir : String) (args : Args) (filter_regexes : List Glob)
    (exclude_regex : Option Glob) : Entries → SearchResult
  | Entries.nil => emptyResult
  | Entries.cons e rest =>
      mergeR (walkEntry dir args filter_regexes exclude_regex e)
        (walkEntries dir args filter_regexes exclude_regex rest)

/-- One iteration of the entry loop. -/
def walkEntry (dir : String) (args : Args) (filter_regexes : List Glob)
    (exclude_regex : Option Glob) : DirEntry → SearchResult
  | DirEntry.fail e =>
      if e.kind = IoErrKind.permissionDenied then
        { files := [], permissionDeniedDirs := [dir], otherErrorOccurred := false,
          errorMessage := "" }
      else
        { files := [], permissionDeniedDirs := [], otherErrorOccurred := true,
          errorMessage := "Error accessing entry: " ++ e.msg ++ "\n" }
  | DirEntry.node n =>
      if n.isDirB then
        let sub := search_files (dir ++ "/" ++ n.nameF) n args filter_regexes
        { files := sub.files
          permissionDeniedDirs := sub.permissionDeniedDirs
          otherErrorOccurred := sub.otherErrorOccurred
          errorMessage := if sub.errorMessage.isEmpty then "" else sub.errorMessage ++ "\n" }
      else
        match n.fileNameF with
        | FName.undecodable _ => emptyResult
        | FName.utf8 file_name =>
            let full_path := dir ++ "/" ++ file_name
            let nm := name_matches args filter_regexes exclude_regex file_name
            let scan : Except IoErr Bool :=
              if args.content then search_content n.contentF filter_regexes
              else Except.ok false
            match scan with
            | Except.ok content_matches =>
                { files := if nm || content_matches then [full_path] else []
                  permissionDeniedDirs := []
                  otherErrorOccurred := false
                  errorMessage := "" }
            | Except.error e =>
                { files := if nm then [full_path] else []
                  permissionDeniedDirs := []
                  otherErrorOccurred := true
                  errorMessage := "Error reading file " ++ full_path ++ ": " ++ e.msg ++ "\n" }
end

/-- Concatenation of entry lists (to talk about a listing split into its
file entries followed by child directories). -/
def Entries.append : Entries → Entries → Entries
  | Entries.nil, es => es
  | Entries.cons e rest, es => Entries.cons e (Entries.append rest es)

/-- Every entry enumerates successfully and is a non-directory node: the
"directory's own file entries" of the concatenation law. -/
def Entries.allFileEntries : Entries → Bool
  | Entries.nil => true
  | Entries.cons (DirEntry.fail _) _ => false
  | Entries.cons (DirEntry.node n) rest => !n.isDirB && Entries.allFileEntries rest

/-- The token list `compileGlob` produces on patterns free of `.` and of
other regex metacharacters: `*` becomes the code's `.*` token, everything
else a literal (proved in `parseTrans_translate`).  This is a code-side
description, not the spec's matcher. -/
def codeTokensOf (p : String) : List GlobTok :=
  p.data.map (fun c => if c = '*' then GlobTok.anyStar else GlobTok.lit c)

/-- Modelled from the spec: one token of the claimed matcher — a literal
character, or `*` standing for "match any sequence of characters" (any
characters, newlines included, unlike the code's `.*`). -/
inductive SpecTok where
  | lit (c : Char)
  | star
deriving DecidableEq, Repr

/-- Modelled from the spec: whole-string matching for the claimed semantics,
anchored at both ends; `star` may consume any (possibly empty) prefix of the
candidate, with no restriction on the characters consumed. -/
def specTokMatch : List SpecTok → List Char → Bool
  | [], ds => ds.isEmpty
  | SpecTok.lit c :: ts, ds =>
      match ds with
      | [] => false
      | d :: ds' => c == d && specTokMatch ts ds'
  | SpecTok.star :: ts, ds => ds.tails.any (fun v => specTokMatch ts v)

/-- Modelled from the spec: the matcher the Pattern Compiler is claimed to
produce — each `*` matches any sequence of characters, every other character
matches only itself literally. -/
def specTokens (p : String) : List SpecTok :=
  p.data.map (fun c => if c = '*' then SpecTok.star else SpecTok.lit c)

/-- Modelled from the spec: whole-string matching where `*` is an
unrestricted wildcard and all other pattern characters are literals. -/
def specLiteralGlobMatch (p s : String) : Bool :=
  specTokMatch (specTokens p) s.data

/-- Modelled from the spec: `nameMatches = hiddenOk AND nameIncluded AND NOT
nameExcluded`, with `nameExcluded = (exclude compiled) AND (exclude matches
name)`. -/
def spec_name_matches (args : Args) (frs : List Glob) (exr : Option Glob)
    (name : String) : Bool :=
  ((args.all || !(startsWithDot name)) &&
   (frs.isEmpty || frs.any (fun m => globMatch m name))) &&
  !(match exr with
    | some re => globMatch re name
    | none => false)

/-- Modelled from the spec: `contentMatches` is evaluated only when content
search is enabled, and a scan failure counts as not matching. -/
def spec_content_matches (args : Args) (frs : List Glob) (fc : FileContent) : Bool :=
  args.content &&
  (match search_content fc frs with
   | Except.ok b => b
   | Except.error _ => false)

theorem mergeR_emptyResult_left (b : SearchResult) : mergeR emptyResult b = b := by
  simp [mergeR, emptyResult, String.empty_append]

theorem mergeR_emptyResult_right (a : SearchResult) : mergeR a emptyResult = a := by
  simp [mergeR, emptyResult, String.append_empty]

theorem mergeR_assoc (a b c : SearchResult) :
    mergeR (mergeR a b) c = mergeR a (mergeR b c) := by
  simp [mergeR, List.append_assoc, Bool.or_assoc, String.append_assoc]

theorem walkEntries_append (dir : String) (args : Args) (frs : List Glob)
    (exr : Option Glob) (a b : Entries) :
    walkEntries dir args frs exr (Entries.append a b)
      = mergeR (walkEntries dir args frs exr a) (walkEntries dir args frs exr b) := by
  match a with
  | Entries.nil => simp [Entries.append, walkEntries, mergeR_emptyResult_left]
  | Entries.cons e rest =>
      simp [Entries.append, walkEntries, walkEntries_append dir args frs exr rest b,
        mergeR_assoc]

theorem name_matches_eq_spec (args : Args) (frs : List Glob) (exr : Option Glob)
    (name : String) :
    name_matches args frs exr name = spec_name_matches args frs exr name := by
  cases exr with
  | none => simp [name_matches, spec_name_matches, Bool.and_assoc]
  | some re => simp [name_matches, spec_name_matches, Bool.and_assoc]

theorem scanLines_all_ok (frs : List Glob) (lines : List String) :
    scanLines frs (lines.map Except.ok)
      = Except.ok (lines.any (fun l => frs.any (fun re => globMatch re l))) := by
  induction lines with
  | nil => simp [scanLines]
  | cons l rest ih =>
      by_cases h : frs.any (fun re => globMatch re l) = true
      · simp [scanLines, h]
      · simp [scanLines, h, ih]

theorem search_files_listing_ok (dir n : String) (args : Args) (frs : List Glob)
    (es : Entries) :
    search_files dir (FsNode.dir n none (Listing.ok es)) args frs
      = walkEntries dir args frs (args.exclude.bind compileGlob) es := rfl

theorem walkEntries_cons (dir : String) (args : Args) (frs : List Glob)
    (exr : Option Glob) (e : DirEntry) (rest : Entries) :
    walkEntries dir args frs exr (Entries.cons e rest)
      = mergeR (walkEntry dir args frs exr e) (walkEntries dir args frs exr rest) := rfl

theorem walkEntry_node_dir (dir : String) (args : Args) (frs : List Glob)
    (exr : Option Glob) (n : FsNode) (h : n.isDirB = true) :
    walkEntry dir args frs exr (DirEntry.node n)
      = { files := (search_files (dir ++ "/" ++ n.nameF) n args frs).files
          permissionDeniedDirs := (search_files (dir ++ "/" ++ n.nameF) n args frs).permissionDeniedDirs
          otherErrorOccurred := (search_files (dir ++ "/" ++ n.nameF) n args frs).otherErrorOccurred
          errorMessage :=
            if (search_files (dir ++ "/" ++ n.nameF) n args frs).errorMessage.isEmpty then ""
            else (search_files (dir ++ "/" ++ n.nameF) n args frs).errorMessage ++ "\n" } := by
  simp only [walkEntry, h, if_pos]

theorem tokMatch_nil_eq (ds : List Char) : tokMatch [] ds = ds.isEmpty := rfl

theorem tokMatch_lit_nil (c : Char) (ts : List GlobTok) :
    tokMatch (GlobTok.lit c :: ts) [] = false := rfl

theorem tokMatch_lit_cons (c : Char) (ts : List GlobTok) (d : Char) (ds : List Char) :
    tokMatch (GlobTok.lit c :: ts) (d :: ds) = (c == d && tokMatch ts ds) := rfl

theorem tokMatch_all_lits (cs ds : List Char) :
    tokMatch (cs.map GlobTok.lit) ds = true ↔ ds = cs := by
  induction cs generalizing ds with
  | nil =>
      cases ds with
      | nil => simp [tokMatch_nil_eq]
      | cons d ds => simp [tokMatch_nil_eq]
  | cons c cs ih =>
      cases ds with
      | nil => simp [tokMatch_lit_nil]
      | cons d ds =>
          rw [List.map_cons, tokMatch_lit_cons]
          simp only [Bool.and_eq_true, beq_iff_eq, ih, List.cons.injEq]
          constructor
          · rintro ⟨h1, h2⟩; exact ⟨h1.symm, h2⟩
          · rintro ⟨h1, h2⟩; exact ⟨h1.symm, h2⟩

theorem parseTrans_cons_plain (c : Char) (rest : List Char)
    (hdot : c ≠ '.') (hspec : c ∉ regexSpecialChars) :
    parseTrans (c :: rest) = (parseTrans rest).map (fun ts => GlobTok.lit c :: ts) := by
  rw [parseTrans.eq_def]
  simp [hdot, hspec]

theorem parseTrans_translate (cs : List Char)
    (h : ∀ c ∈ cs, c = '*' ∨ (c ∉ regexSpecialChars ∧ c ≠ '.')) :
    parseTrans (translateChars cs)
      = some (cs.map (fun c => if c = '*' then GlobTok.anyStar else GlobTok.lit c)) := by
  induction cs with
  | nil => simp [translateChars, parseTrans]
  | cons c cs ih =>
      have hrest : ∀ x ∈ cs, x = '*' ∨ (x ∉ regexSpecialChars ∧ x ≠ '.') :=
        fun x hx => h x (List.mem_cons_of_mem c hx)
      rcases h c (List.mem_cons_self c cs) with hstar | ⟨hspec, hdot⟩
      · subst hstar
        simp [translateChars, parseTrans, ih hrest]
      · have hcstar : c ≠ '*' := fun hcc => hspec (by simp [hcc, regexSpecialChars])
        rw [translateChars]
        rw [if_neg hcstar]
        rw [parseTrans_cons_plain c _ hdot hspec, ih hrest]
        simp [hcstar]

theorem search_files_single_file (dir n fname : String) (fc : FileContent)
    (args : Args) (frs : List Glob) :
    (search_files dir (FsNode.dir n none (Listing.ok (Entries.cons
        (DirEntry.node (FsNode.file (FName.utf8 fname) fc)) Entries.nil))) args frs).files
      = (if name_matches args frs (args.exclude.bind compileGlob) fname
            || (args.content &&
                 match search_content fc frs with
                 | Except.ok b => b
                 | Except.error _ => false)
         then [dir ++ "/" ++ fname] else []) := by
  rw [search_files_listing_ok, walkEntries_cons]
  simp only [walkEntry, FsNode.isDirB, FsNode.fileNameF, FsNode.contentF]
  cases hc : args.content with
  | false => simp [walkEntries, mergeR, emptyResult]
  | true =>
      cases hs : search_content fc frs with
      | ok b => simp [hs, walkEntries, mergeR, emptyResult]
      | error e => simp [hs, walkEntries, mergeR, emptyResult]

theorem specTokMatch_nil_eq (ds : List Char) : specTokMatch [] ds = ds.isEmpty := rfl

theorem specTokMatch_lit_nil (c : Char) (ts : List SpecTok) :
    specTokMatch (SpecTok.lit c :: ts) [] = false := rfl

theorem specTokMatch_lit_cons (c : Char) (ts : List SpecTok) (d : Char) (ds : List Char) :
    specTokMatch (SpecTok.lit c :: ts) (d :: ds) = (c == d && specTokMatch ts ds) := rfl

theorem specTokMatch_star (ts : List SpecTok) (ds : List Char) :
    specTokMatch (SpecTok.star :: ts) ds = ds.tails.any (fun v => specTokMatch ts v) := rfl

theorem tokMatch_star (ts : List GlobTok) (ds : List Char) :
    tokMatch (GlobTok.anyStar :: ts) ds = (dropNoNl ds).any (fun v => tokMatch ts v) := rfl

theorem dropNoNl_eq_tails (ds : List Char) (h : ('\n' : Char) ∉ ds) :
    dropNoNl ds = ds.tails := by
  induction ds with
  | nil => rfl
  | cons d ds ih =>
      have hd : d ≠ '\n' := fun hdd => h (hdd ▸ List.mem_cons_self d ds)
      have hds : ('\n' : Char) ∉ ds := fun hin => h (List.mem_cons_of_mem d hin)
      rw [dropNoNl, if_neg hd, ih hds, List.tails_cons]

theorem tokMatch_code_eq_spec (cs : List Char) (ds : List Char) (hds : ('\n' : Char) ∉ ds) :
    tokMatch (cs.map (fun c => if c = '*' then GlobTok.anyStar else GlobTok.lit c)) ds
      = specTokMatch (cs.map (fun c => if c = '*' then SpecTok.star else SpecTok.lit c)) ds := by
  induction cs generalizing ds with
  | nil => rfl
  | cons c cs ih =>
      by_cases hc : c = '*'
      · subst hc
        rw [List.map_cons, List.map_cons, if_pos rfl, if_pos rfl,
          tokMatch_star, specTokMatch_star, dropNoNl_eq_tails ds hds, Bool.eq_iff_iff]
        simp only [List.any_eq_true]
        constructor
        · rintro ⟨v, hv, hm⟩
          have hvnl : ('\n' : Char) ∉ v :=
            fun hin => hds (((List.mem_tails v ds).mp hv).subset hin)
          exact ⟨v, hv, by rw [← ih v hvnl]; exact hm⟩
        · rintro ⟨v, hv, hm⟩
          have hvnl : ('\n' : Char) ∉ v :=
            fun hin => hds (((List.mem_tails v ds).mp hv).subset hin)
          exact ⟨v, hv, by rw [ih v hvnl]; exact hm⟩
      · rw [List.map_cons, List.map_cons, if_neg hc, if_neg hc]
        cases ds with
        | nil => rw [tokMatch_lit_nil, specTokMatch_lit_nil]
        | cons d ds =>
            have hds2 : ('\n' : Char) ∉ ds := fun hin => hds (List.mem_cons_of_mem d hin)
            rw [tokMatch_lit_cons, specTokMatch_lit_cons, ih ds hds2]

/-- C1, counterexample: in a readable directory whose iterator yields one
entry that fails with a permission-denied error, `search_files` records the
directory's own path in the permission-denied list and raises no generic
error at all — the claim says the denied list stays empty and a generic
"accessing entry" error is recorded instead. -/
theorem C1_counterexample :
    let r := search_files "d"
      (FsNode.dir "d" none (Listing.ok (Entries.cons
        (DirEntry.fail ⟨IoErrKind.permissionDenied, "permission denied (os error 13)"⟩)
        Entries.nil)))
      { exclude := none, all := false, filter := [], content := false } []
    r.permissionDeniedDirs = ["d"] ∧ r.otherErrorOccurred = false ∧ r.errorMessage = "" := by
  decide

/-- C1, amended: when enumerating an individual entry of a readable directory
fails with a permission-denied error, the traversal appends the current
directory's path to the permission-denied list (leaving the other-error flag
and message untouched) and continues with the remaining entries; only
non-permission entry errors become generic "accessing entry" errors. -/
theorem C1_amended (dir n : String) (args : Args) (frs : List Glob)
    (e : IoErr) (rest : Entries) (h : e.kind = IoErrKind.permissionDenied) :
    search_files dir (FsNode.dir n none (Listing.ok
        (Entries.cons (DirEntry.fail e) rest))) args frs
      = mergeR { files := [], permissionDeniedDirs := [dir], otherErrorOccurred := false,
                 errorMessage := "" }
          (walkEntries dir args frs (args.exclude.bind compileGlob) rest) := by
  rw [search_files_listing_ok, walkEntries_cons]
  simp [walkEntry, h]

/-- C1, witness for the amended theorem at a concrete input. -/
theorem C1_amended_witness :
    (⟨IoErrKind.permissionDenied, "denied"⟩ : IoErr).kind = IoErrKind.permissionDenied ∧
    search_files "d" (FsNode.dir "d" none (Listing.ok
        (Entries.cons (DirEntry.fail ⟨IoErrKind.permissionDenied, "denied"⟩) Entries.nil)))
      { exclude := none, all := false, filter := [], content := false } []
      = mergeR { files := [], permissionDeniedDirs := ["d"], otherErrorOccurred := false,
                 errorMessage := "" }
          (walkEntries "d" { exclude := none, all := false, filter := [], content := false }
            [] (Option.bind none compileGlob) Entries.nil) :=
  ⟨rfl, C1_amended "d" "d" { exclude := none, all := false, filter := [], content := false }
    [] ⟨IoErrKind.permissionDenied, "denied"⟩ Entries.nil rfl⟩

/-- C2, counterexample: a directory enumerated as `[c1, f, c2]` (child `c1`,
own file `f`, child `c2`) yields matched files `[c1's, f, c2's]` — the
subtree results are spliced at each child's position in enumeration order,
not `self-level files ++ c1's ++ c2's` as the claim states. -/
theorem C2_counterexample :
    let c1 := FsNode.dir "c1" none (Listing.ok (Entries.cons
      (DirEntry.node (FsNode.file (FName.utf8 "x") (FileContent.lines []))) Entries.nil))
    let c2 := FsNode.dir "c2" none (Listing.ok (Entries.cons
      (DirEntry.node (FsNode.file (FName.utf8 "y") (FileContent.lines []))) Entries.nil))
    let root := FsNode.dir "r" none (Listing.ok (Entries.cons (DirEntry.node c1)
      (Entries.cons (DirEntry.node (FsNode.file (FName.utf8 "f") (FileContent.lines [])))
      (Entries.cons (DirEntry.node c2) Entries.nil))))
    (search_files "r" root { exclude := none, all := true, filter := [], content := false }
        []).files = ["r/c1/x", "r/f", "r/c2/y"] ∧
    ["r/c1/x", "r/f", "r/c2/y"] ≠ ["r/f"] ++ ["r/c1/x"] ++ ["r/c2/y"] := by
  decide

/-- C2, amended: matched files follow directory-entry enumeration order with
each subdirectory's matched files spliced in at that subdirectory's position;
in particular, when the listing enumerates the directory's own file entries
first and then the child directories `c1` and `c2`, the matched-files
sequence is self-level files ++ matched(c1) ++ matched(c2). -/
theorem C2_amended (dir n : String) (args : Args) (frs : List Glob)
    (fe : Entries) (c1 c2 : FsNode)
    (hfe : Entries.allFileEntries fe = true)
    (h1 : c1.isDirB = true) (h2 : c2.isDirB = true) :
    (search_files dir (FsNode.dir n none (Listing.ok
        (Entries.append fe (Entries.cons (DirEntry.node c1)
          (Entries.cons (DirEntry.node c2) Entries.nil))))) args frs).files
      = (walkEntries dir args frs (args.exclude.bind compileGlob) fe).files
        ++ (search_files (dir ++ "/" ++ c1.nameF) c1 args frs).files
        ++ (search_files (dir ++ "/" ++ c2.nameF) c2 args frs).files := by
  rw [search_files_listing_ok, walkEntries_append, walkEntries_cons, walkEntries_cons,
    walkEntry_node_dir _ _ _ _ _ h1, walkEntry_node_dir _ _ _ _ _ h2]
  simp [mergeR, walkEntries, emptyResult, List.append_assoc]

/-- C2, witness for the amended theorem: a directory listing one own file and
then two children. -/
theorem C2_amended_witness :
    Entries.allFileEntries (Entries.cons
      (DirEntry.node (FsNode.file (FName.utf8 "a") (FileContent.lines []))) Entries.nil) = true ∧
    (FsNode.dir "c1" none (Listing.ok (Entries.cons
      (DirEntry.node (FsNode.file (FName.utf8 "x") (FileContent.lines []))) Entries.nil))).isDirB = true ∧
    (FsNode.dir "c2" none (Listing.ok Entries.nil)).isDirB = true ∧
    (search_files "r" (FsNode.dir "r" none (Listing.ok
        (Entries.append
          (Entries.cons (DirEntry.node (FsNode.file (FName.utf8 "a") (FileContent.lines [])))
            Entries.nil)
          (Entries.cons (DirEntry.node (FsNode.dir "c1" none (Listing.ok (Entries.cons
              (DirEntry.node (FsNode.file (FName.utf8 "x") (FileContent.lines []))) Entries.nil))))
            (Entries.cons (DirEntry.node (FsNode.dir "c2" none (Listing.ok Entries.nil)))
              Entries.nil)))))
        { exclude := none, all := true, filter := [], content := false } []).files
      = ["r/a"] ++ ["r/c1/x"] ++ ([] : List String) :=
  ⟨rfl, rfl, rfl, by
    have h := C2_amended "r" "r"
      { exclude := none, all := true, filter := [], content := false } []
      (Entries.cons (DirEntry.node (FsNode.file (FName.utf8 "a") (FileContent.lines [])))
        Entries.nil)
      (FsNode.dir "c1" none (Listing.ok (Entries.cons
        (DirEntry.node (FsNode.file (FName.utf8 "x") (FileContent.lines []))) Entries.nil)))
      (FsNode.dir "c2" none (Listing.ok Entries.nil)) rfl rfl rfl
    simpa using h⟩

/-- C3: a file entry with a decodable name is selected — its full path is the
directory's matched-files contribution — exactly when `nameMatches OR
contentMatches`, where `nameMatches` is the hidden/filter/exclude conjunction
of the Selection Policy and `contentMatches` is consulted only when content
search is enabled (a failed scan counting as false); in particular the
exclude pattern and the hidden-file rule never suppress a file selected
purely by content. -/
theorem C3_selection_policy (dir n fname : String) (fc : FileContent)
    (args : Args) (frs : List Glob) :
    (search_files dir (FsNode.dir n none (Listing.ok (Entries.cons
        (DirEntry.node (FsNode.file (FName.utf8 fname) fc)) Entries.nil))) args frs).files
      = (if spec_name_matches args frs (args.exclude.bind compileGlob) fname
            || spec_content_matches args frs fc
         then [dir ++ "/" ++ fname] else []) := by
  rw [search_files_single_file, ← name_matches_eq_spec]
  rfl

/-- C4, counterexample: the claim fails on both halves of the translation.
The pattern `a.c` compiles and its matcher accepts the candidate `abc` — `.`
is regex syntax (any character), not a literal match of `'.'`; and the
pattern `a*b` compiles to `^a.*b$`, whose `.*` rejects the candidate with the
literal content `a`, newline, `b`, which the claimed "any sequence of
characters" wildcard accepts. -/
theorem C4_counterexample :
    (compileGlob "a.c" = some [GlobTok.lit 'a', GlobTok.anyChar, GlobTok.lit 'c'] ∧
     globMatch [GlobTok.lit 'a', GlobTok.anyChar, GlobTok.lit 'c'] "abc" = true ∧
     specLiteralGlobMatch "a.c" "abc" = false) ∧
    (compileGlob "a*b" = some [GlobTok.lit 'a', GlobTok.anyStar, GlobTok.lit 'b'] ∧
     globMatch [GlobTok.lit 'a', GlobTok.anyStar, GlobTok.lit 'b'] "a\nb" = false ∧
     specLiteralGlobMatch "a*b" "a\nb" = true) := by
  refine ⟨⟨rfl, rfl, rfl⟩, ⟨rfl, rfl, rfl⟩⟩

/-- C4, amended: the compiled matcher is anchored at both ends (whole-string,
never a proper substring), but the translation is not the claimed one: each
`*` becomes the regex `.*`, matching any sequence of characters other than
newlines, and every other character keeps its regex meaning.  For a pattern
containing only `*` and characters that are neither regex metacharacters nor
`.`, compilation succeeds, the matcher agrees with the claimed literal-glob
semantics on every newline-free candidate, and without `*` it accepts exactly
the pattern itself. -/
theorem C4_amended (p s : String)
    (h : ∀ c ∈ p.data, c = '*' ∨ (c ∉ regexSpecialChars ∧ c ≠ '.'))
    (hnl : ('\n' : Char) ∉ s.data) :
    compileGlob p = some (codeTokensOf p) ∧
    globMatch (codeTokensOf p) s = specLiteralGlobMatch p s ∧
    ('*' ∉ p.data → (globMatch (codeTokensOf p) s = true ↔ s = p)) := by
  refine ⟨parseTrans_translate p.data h, ?_, ?_⟩
  · exact tokMatch_code_eq_spec p.data s.data hnl
  · intro hstar
    have hmap : codeTokensOf p = p.data.map GlobTok.lit := by
      unfold codeTokensOf
      apply List.map_congr_left
      intro a ha
      rw [if_neg]
      intro hae
      exact hstar (hae ▸ ha)
    rw [globMatch, hmap, tokMatch_all_lits]
    constructor
    · intro hd
      exact String.ext hd
    · intro hd
      rw [hd]

/-- C4, witness for the amended theorem: `a*b` compiles and agrees with the
literal-glob semantics on the newline-free candidate `axb`, and the
wildcard-free pattern `ab` matches exactly itself. -/
theorem C4_amended_witness :
    (∀ c ∈ ("a*b" : String).data, c = '*' ∨ (c ∉ regexSpecialChars ∧ c ≠ '.')) ∧
    (('\n' : Char) ∉ ("axb" : String).data) ∧
    (∀ c ∈ ("ab" : String).data, c = '*' ∨ (c ∉ regexSpecialChars ∧ c ≠ '.')) ∧
    ('*' ∉ ("ab" : String).data) ∧
    compileGlob "a*b" = some (codeTokensOf "a*b") ∧
    globMatch (codeTokensOf "a*b") "axb" = specLiteralGlobMatch "a*b" "axb" ∧
    (globMatch (codeTokensOf "ab") "ab" = true ↔ ("ab" : String) = "ab") :=
  ⟨by decide, by decide, by decide, by decide,
   (C4_amended "a*b" "axb" (by decide) (by decide)).1,
   (C4_amended "a*b" "axb" (by decide) (by decide)).2.1,
   (C4_amended "ab" "ab" (by decide) (by decide)).2.2 (by decide)⟩

/-- C5: for a readable file and a non-empty matcher set, the content scan
returns `Ok` of "some line is matched in its entirety by some matcher" — true
exactly when such a line exists, false at end of file otherwise (anchored
whole-line semantics, since `globMatch` is whole-string matching). -/
theorem C5_content_scan (lines : List String) (frs : List Glob) (h : frs ≠ []) :
    search_content (FileContent.lines (lines.map Except.ok)) frs
      = Except.ok (lines.any (fun l => frs.any (fun re => globMatch re l))) ∧
    (search_content (FileContent.lines (lines.map Except.ok)) frs = Except.ok true
      ↔ ∃ l ∈ lines, ∃ re ∈ frs, globMatch re l = true) := by
  have he : search_content (FileContent.lines (lines.map Except.ok)) frs
      = Except.ok (lines.any (fun l => frs.any (fun re => globMatch re l))) := by
    rw [search_content, scanLines_all_ok]
  refine ⟨he, ?_⟩
  rw [he]
  simp [List.any_eq_true]

/-- C5, witness: scanning the lines `x`, `a` with the single literal matcher
`a` reports a match. -/
theorem C5_content_scan_witness :
    ([[GlobTok.lit 'a']] : List Glob) ≠ [] ∧
    search_content (FileContent.lines (["x", "a"].map Except.ok)) [[GlobTok.lit 'a']]
      = Except.ok true := by
  refine ⟨by decide, ?_⟩
  have h := (C5_content_scan ["x", "a"] [[GlobTok.lit 'a']] (by decide)).1
  simpa using h

/-- C6, counterexample: with an empty filter set, content search enabled and
a readable hidden file `.env`, the claim says the file is content-matched
(empty set = no restriction) and hence selected; the code's content scan with
zero matchers never matches, so the file is not selected at all. -/
theorem C6_counterexample :
    let r := search_files "r" (FsNode.dir "r" none (Listing.ok (Entries.cons
      (DirEntry.node (FsNode.file (FName.utf8 ".env")
        (FileContent.lines [Except.ok "hello"]))) Entries.nil)))
      { exclude := none, all := false, filter := [], content := true } []
    r.files = [] ∧ "r/.env" ∉ r.files := by
  decide

/-- C6, amended: an empty compiled filter set means "no restriction" for name
matching, and an absent exclude excludes nothing — any file passing the
hidden rule is name-matched and selected; but the content scan with an empty
matcher set returns false for every file (content search never matches), so
the "no restriction" reading does not extend to content matching. -/
theorem C6_empty_filter_set (dir n fname : String) (lines : List String) (args : Args)
    (hex : args.exclude = none) (hh : (args.all || !(startsWithDot fname)) = true) :
    name_matches args [] (args.exclude.bind compileGlob) fname = true ∧
    search_content (FileContent.lines (lines.map Except.ok)) [] = Except.ok false ∧
    (search_files dir (FsNode.dir n none (Listing.ok (Entries.cons
        (DirEntry.node (FsNode.file (FName.utf8 fname)
          (FileContent.lines (lines.map Except.ok)))) Entries.nil))) args []).files
      = [dir ++ "/" ++ fname] := by
  have hnm : name_matches args [] (args.exclude.bind compileGlob) fname = true := by
    simp [name_matches, hex, hh]
  have hsc : search_content (FileContent.lines (lines.map Except.ok)) ([] : List Glob)
      = Except.ok false := by
    rw [search_content, scanLines_all_ok]
    simp
  refine ⟨hnm, hsc, ?_⟩
  rw [search_files_single_file, hnm, hsc]
  simp

/-- C6, witness for the amended theorem: a non-hidden file under content
search with no filters. -/
theorem C6_empty_filter_set_witness :
    ({ exclude := none, all := false, filter := [], content := true } : Args).exclude = none ∧
    (({ exclude := none, all := false, filter := [], content := true } : Args).all
      || !(startsWithDot "notes.txt")) = true ∧
    (search_files "r" (FsNode.dir "r" none (Listing.ok (Entries.cons
        (DirEntry.node (FsNode.file (FName.utf8 "notes.txt")
          (FileContent.lines (["hello"].map Except.ok)))) Entries.nil)))
      { exclude := none, all := false, filter := [], content := true } []).files
      = ["r/notes.txt"] :=
  ⟨rfl, by decide, by
    have h := (C6_empty_filter_set "r" "r" "notes.txt" ["hello"]
      { exclude := none, all := false, filter := [], content := true } rfl (by decide)).2.2
    simpa using h⟩

/-- C7: a directory whose metadata lookup fails with permission-denied, or
whose listing open fails with permission-denied, contributes exactly its own
path to the permission-denied list and an otherwise-empty result (no files,
other-error flag false, empty message) without recursing; and as an entry of
a parent directory such a child leaves the remaining sibling entries to be
processed normally. -/
theorem C7_denied_directory (dir n pdir pn cn : String) (args : Args) (frs : List Glob)
    (e1 e2 : IoErr) (lst : Listing) (rest : Entries)
    (h1 : e1.kind = IoErrKind.permissionDenied) (h2 : e2.kind = IoErrKind.permissionDenied) :
    search_files dir (FsNode.dir n (some e1) lst) args frs
      = { files := [], permissionDeniedDirs := [dir], otherErrorOccurred := false,
          errorMessage := "" } ∧
    search_files dir (FsNode.dir n none (Listing.fail e2)) args frs
      = { files := [], permissionDeniedDirs := [dir], otherErrorOccurred := false,
          errorMessage := "" } ∧
    search_files pdir (FsNode.dir pn none (Listing.ok (Entries.cons
        (DirEntry.node (FsNode.dir cn none (Listing.fail e2))) rest))) args frs
      = mergeR { files := [], permissionDeniedDirs := [pdir ++ "/" ++ cn],
                 otherErrorOccurred := false, errorMessage := "" }
          (walkEntries pdir args frs (args.exclude.bind compileGlob) rest) := by
  refine ⟨?_, ?_, ?_⟩
  · simp [search_files, h1]
  · simp [search_files, h2]
  · rw [search_files_listing_ok, walkEntries_cons,
      walkEntry_node_dir _ _ _ _ _ (by simp [FsNode.isDirB])]
    simp [search_files, FsNode.nameF, h2, show ("" : String).isEmpty = true from rfl]

/-- C7, witness at a concrete input: an unreadable root and an unreadable
child `/p/c` with no siblings. -/
theorem C7_denied_directory_witness :
    (⟨IoErrKind.permissionDenied, "denied"⟩ : IoErr).kind = IoErrKind.permissionDenied ∧
    search_files "d"
      (FsNode.dir "n" (some ⟨IoErrKind.permissionDenied, "denied"⟩) (Listing.ok Entries.nil))
      { exclude := none, all := false, filter := [], content := false } []
      = { files := [], permissionDeniedDirs := ["d"], otherErrorOccurred := false,
          errorMessage := "" } ∧
    search_files "p" (FsNode.dir "pn" none (Listing.ok (Entries.cons
        (DirEntry.node (FsNode.dir "c" none
          (Listing.fail ⟨IoErrKind.permissionDenied, "denied"⟩))) Entries.nil)))
      { exclude := none, all := false, filter := [], content := false } []
      = mergeR { files := [], permissionDeniedDirs := ["p" ++ "/" ++ "c"],
                 otherErrorOccurred := false, errorMessage := "" }
          (walkEntries "p" { exclude := none, all := false, filter := [], content := false }
            [] (Option.bind none compileGlob) Entries.nil) := by
  have h := C7_denied_directory "d" "n" "p" "pn" "c"
    { exclude := none, all := false, filter := [], content := false } []
    ⟨IoErrKind.permissionDenied, "denied"⟩ ⟨IoErrKind.permissionDenied, "denied"⟩
    (Listing.ok Entries.nil) Entries.nil rfl rfl
  exact ⟨rfl, h.1, h.2.2⟩

/-- C8: with content search enabled, a file whose content scan fails is
recorded as a generic error (other-error flag set, "Error reading file"
message appended), `contentMatches` is treated as false, the traversal
returns normally, and the file is still selected exactly when its name
matches. -/
theorem C8_scan_failure (dir n fname : String) (args : Args) (frs : List Glob)
    (e : IoErr) (hc : args.content = true) :
    search_files dir (FsNode.dir n none (Listing.ok (Entries.cons
        (DirEntry.node (FsNode.file (FName.utf8 fname) (FileContent.openFail e)))
        Entries.nil))) args frs
      = { files := if name_matches args frs (args.exclude.bind compileGlob) fname
                    then [dir ++ "/" ++ fname] else []
          permissionDeniedDirs := []
          otherErrorOccurred := true
          errorMessage := "Error reading file " ++ (dir ++ "/" ++ fname) ++ ": "
            ++ e.msg ++ "\n" } := by
  simp [search_files, walkEntries, walkEntry, FsNode.isDirB, FsNode.fileNameF,
    FsNode.contentF, hc, search_content, mergeR_emptyResult_right]

/-- C8, witness: an unreadable file `d/a` whose name matches (no filters),
scanned because content search is on. -/
theorem C8_scan_failure_witness :
    ({ exclude := none, all := true, filter := [], content := true } : Args).content = true ∧
    search_files "d" (FsNode.dir "n" none (Listing.ok (Entries.cons
        (DirEntry.node (FsNode.file (FName.utf8 "a")
          (FileContent.openFail ⟨IoErrKind.other, "io"⟩))) Entries.nil)))
      { exclude := none, all := true, filter := [], content := true } []
      = { files := if name_matches { exclude := none, all := true, filter := [], content := true }
                      [] (Option.bind none compileGlob) "a"
                    then ["d" ++ "/" ++ "a"] else []
          permissionDeniedDirs := []
          otherErrorOccurred := true
          errorMessage := "Error reading file " ++ ("d" ++ "/" ++ "a") ++ ": "
            ++ "io" ++ "\n" } :=
  ⟨rfl, C8_scan_failure "d" "n" "a"
    { exclude := none, all := true, filter := [], content := true } []
    ⟨IoErrKind.other, "io"⟩ rfl⟩

/-- C9: the hidden-name rule never applies to directories — a subdirectory
entry whose name starts with `.` is recursed into even when the
include-hidden flag is false, the parent's matched files beginning with the
hidden child's matched files. -/
theorem C9_hidden_directory_recursed (dir n cn : String) (args : Args) (frs : List Glob)
    (lst : Listing) (rest : Entries)
    (hall : args.all = false) (hh : startsWithDot cn = true) :
    (search_files dir (FsNode.dir n none (Listing.ok (Entries.cons
        (DirEntry.node (FsNode.dir cn none lst)) rest))) args frs).files
      = (search_files (dir ++ "/" ++ cn) (FsNode.dir cn none lst) args frs).files
        ++ (walkEntries dir args frs (args.exclude.bind compileGlob) rest).files := by
  rw [search_files_listing_ok, walkEntries_cons,
    walkEntry_node_dir _ _ _ _ _ (by simp [FsNode.isDirB])]
  simp [mergeR, FsNode.nameF]

/-- C9, witness: the non-hidden file `data.txt` inside the hidden directory
`.hid` is matched although `all` is false. -/
theorem C9_hidden_directory_recursed_witness :
    ({ exclude := none, all := false, filter := [], content := false } : Args).all = false ∧
    startsWithDot ".hid" = true ∧
    (search_files "r" (FsNode.dir "r" none (Listing.ok (Entries.cons
        (DirEntry.node (FsNode.dir ".hid" none (Listing.ok (Entries.cons
          (DirEntry.node (FsNode.file (FName.utf8 "data.txt") (FileContent.lines [])))
          Entries.nil)))) Entries.nil)))
      { exclude := none, all := false, filter := [], content := false } []).files
      = ["r/.hid/data.txt"] :=
  ⟨rfl, by decide, by
    have h := C9_hidden_directory_recursed "r" "r" ".hid"
      { exclude := none, all := false, filter := [], content := false } []
      (Listing.ok (Entries.cons
        (DirEntry.node (FsNode.file (FName.utf8 "data.txt") (FileContent.lines [])))
        Entries.nil)) Entries.nil rfl (by decide)
    simpa using h⟩

/-- C10: a non-directory entry whose file name is not valid UTF-8 is skipped
silently — whatever its content and whatever the configuration, the directory's
result is exactly the result of the remaining entries: no path added, no
content scan performed, no error of any kind recorded. -/
theorem C10_undecodable_name_skipped (dir n lossy : String) (args : Args)
    (frs : List Glob) (fc : FileContent) (rest : Entries) :
    search_files dir (FsNode.dir n none (Listing.ok (Entries.cons
        (DirEntry.node (FsNode.file (FName.undecodable lossy) fc)) rest))) args frs
      = walkEntries dir args frs (args.exclude.bind compileGlob) rest := by
  rw [search_files_listing_ok, walkEntries_cons]
  simp [walkEntry, FsNode.isDirB, FsNode.fileNameF, mergeR_emptyResult_left]
